import Mathlib

/-!
Shallow embedding of `src/algorithm.py` (content-recommendation-algorithm).

Python runtime values that can appear in an activity entry are modelled by
`PyVal`; numbers (int, float, bool-as-number) are carried as exact rationals.
A raw activity entry is a record of the five fields the validator inspects,
each optional to model a missing dictionary key.  In-place mutation by
`DataValidator.validate_entry` is modelled by returning the final state of the
entry together with the raised error, when any (`validateEntryRun`).
-/

inductive PyVal where
  | vBool : Bool → PyVal
  | vInt : Int → PyVal
  | vFloat : ℚ → PyVal
  | vStr : String → PyVal
  | vList : List PyVal → PyVal
deriving Repr

structure Entry where
  time_spent : Option PyVal
  liked : Option PyVal
  shares : Option PyVal
  commented : Option PyVal
  hashtags : Option PyVal
deriving Repr

/-- The `ScoringConfig` of the source: the five weight parameters.  Python ints
and the float `time_weight` are both carried as rationals. -/
structure ScoringConfig where
  max_time : ℚ
  like_score : ℚ
  share_score : ℚ
  comment_score : ℚ
  time_weight : ℚ
deriving Repr

/-- The default configuration `ScoringConfig()` of the source. -/
def default_config : ScoringConfig := ⟨120, 30, 10, 20, 3/2⟩

/-- Source `ScoringConfig.max_possible_score`:
`max_time * time_weight + like_score + 20 * share_score + comment_score`. -/
def ScoringConfig.max_possible_score (c : ScoringConfig) : ℚ :=
  c.max_time * c.time_weight + c.like_score + 20 * c.share_score + c.comment_score

/-- Python `isinstance(v, (int, float))`: `bool` is a subclass of `int`, so
boolean values satisfy this check. -/
def pyIsNumeric : PyVal → Bool
  | PyVal.vBool _ => true
  | PyVal.vInt _ => true
  | PyVal.vFloat _ => true
  | _ => false

/-- Python `isinstance(v, int)`: again `bool` passes. -/
def pyIsInt : PyVal → Bool
  | PyVal.vBool _ => true
  | PyVal.vInt _ => true
  | _ => false

/-- Whether `isinstance(v, str)` or `isinstance(v, list)` holds. -/
def hashtagsStrOrList : PyVal → Bool
  | PyVal.vStr _ => true
  | PyVal.vList _ => true
  | _ => false

/-- The numeric value of a Python number (`True` counts as 1, `False` as 0). -/
def pyToNum : PyVal → ℚ
  | PyVal.vBool b => if b then 1 else 0
  | PyVal.vInt n => (n : ℚ)
  | PyVal.vFloat q => q
  | _ => 0

/-- Python truthiness of a value, as used by `if entry["liked"]`. -/
def pyTruthy : PyVal → Bool
  | PyVal.vBool b => b
  | PyVal.vInt n => decide (n ≠ 0)
  | PyVal.vFloat q => decide (q ≠ 0)
  | PyVal.vStr s => decide (s ≠ "")
  | PyVal.vList xs => !xs.isEmpty

/-- Python's `str.lower()` (restricted to the ASCII case mapping, which is
all the comparison with the literal `'true'` can observe). -/
def pyLower (s : String) : String := String.mk (s.data.map Char.toLower)

/-- The string-to-boolean coercion applied to `liked`/`commented`:
`entry[k] = entry[k].lower() == 'true'` when the value is a string,
otherwise the value is left alone. -/
def normBoolStr : Option PyVal → Option PyVal
  | some (PyVal.vStr s) => some (PyVal.vBool (pyLower s == "true"))
  | v => v

/-- The hashtags normalization: a bare string is wrapped into a one-element
list, anything else is left as found. -/
def normTags : PyVal → PyVal
  | PyVal.vStr s => PyVal.vList [PyVal.vStr s]
  | v => v

/-- Source `DataValidator.validate_entry`, run on an entry: returns the final state
of the (in-place mutated) entry together with the raised `ValidationError`
message, when one is raised.  The steps follow the source in order:
required-field check, `time_spent` type check, `shares` type check,
`hashtags` normalization (raising when neither string nor list), and finally
the string-to-boolean coercion of `liked` and `commented`. -/
def validateEntryRun (e : Entry) : Entry × Option String :=
  match e.time_spent, e.liked, e.shares, e.commented, e.hashtags with
  | some ts, some lk, some sh, some cm, some ht =>
    if pyIsNumeric ts = false then (e, some "time_spent must be numeric")
    else if pyIsInt sh = false then (e, some "shares must be an integer")
    else
      match ht with
      | PyVal.vStr s =>
        (⟨some ts, normBoolStr (some lk), some sh, normBoolStr (some cm),
          some (PyVal.vList [PyVal.vStr s])⟩, none)
      | PyVal.vList xs =>
        (⟨some ts, normBoolStr (some lk), some sh, normBoolStr (some cm),
          some (PyVal.vList xs)⟩, none)
      | _ => (e, some "hashtags must be a string or a list")
  | _, _, _, _, _ => (e, some "Missing required fields in entry")

/-- The validator as a fallible function: the normalized entry on success,
the `ValidationError` message on failure. -/
def validate_entry (e : Entry) : Except String Entry :=
  match validateEntryRun e with
  | (e1, none) => Except.ok e1
  | (_, some m) => Except.error m

/-- The raw weighted sum computed by `StandardEngagementScorer.calculate_score`
on a (validated, normalized) entry. -/
def raw_score (c : ScoringConfig) (e : Entry) : ℚ :=
  pyToNum (e.time_spent.getD (PyVal.vInt 0)) * c.time_weight
    + (if pyTruthy (e.liked.getD (PyVal.vBool false)) then c.like_score else 0)
    + pyToNum (e.shares.getD (PyVal.vInt 0)) * c.share_score
    + (if pyTruthy (e.commented.getD (PyVal.vBool false)) then c.comment_score else 0)

/-- Source `StandardEngagementScorer.calculate_score`: validates (and thereby
normalizes, in place) the entry, then returns
`raw_score / max_possible_score * 100`.  The mutated entry is returned
alongside the score, since `process_user_data` keeps using it. -/
def calculate_score (c : ScoringConfig) (e : Entry) : Except String (Entry × ℚ) :=
  match validate_entry e with
  | Except.error m => Except.error m
  | Except.ok e1 => Except.ok (e1, raw_score c e1 / c.max_possible_score * 100)

/-- Sample valid entry: already-normalized booleans and list hashtags
(the first example entry of the source's `__main__` block). -/
def entry_a : Entry :=
  ⟨some (PyVal.vInt 60), some (PyVal.vBool true), some (PyVal.vInt 5),
   some (PyVal.vBool true), some (PyVal.vList [PyVal.vStr "python", PyVal.vStr "coding"])⟩

/-- Insert `x` into `l` so that, when `l` is already sorted by `key`
descending, the result stays sorted; `x` is placed after exactly the elements
whose key is strictly greater, which makes the overall sort stable. -/
def insertDesc (key : α → ℚ) (x : α) : List α → List α
  | [] => [x]
  | y :: ys => if key x < key y then y :: insertDesc key x ys else x :: y :: ys

/-- Stable sort by `key` descending, modelling Python's
`sorted(l, key=..., reverse=True)` (Timsort is stable, and `reverse=True`
flips the comparison without disturbing ties). -/
def sortDesc (key : α → ℚ) : List α → List α
  | [] => []
  | x :: xs => insertDesc key x (sortDesc key xs)

/-- The floor of a rational, written out computably. -/
def ratFloor (q : ℚ) : ℤ := Int.fdiv q.num q.den

/-- Round half to even at integer precision, the rounding Python's built-in
`round` uses. -/
def roundHalfEven (q : ℚ) : ℤ :=
  if q - ratFloor q < 1/2 then ratFloor q
  else if 1/2 < q - ratFloor q then ratFloor q + 1
  else if ratFloor q % 2 = 0 then ratFloor q else ratFloor q + 1

/-- Python `round(x, 2)`. -/
def round2 (q : ℚ) : ℚ := (roundHalfEven (q * 100) : ℚ) / 100

/-- The per-user entry loop of `process_user_data`: attempt
`calculate_score` on each entry; on success keep the (mutated) entry paired
with its score, on `ValidationError` skip just that entry. -/
def processEntries (c : ScoringConfig) : List Entry → List (Entry × ℚ)
  | [] => []
  | e :: es =>
    match calculate_score c e with
    | Except.ok p => p :: processEntries c es
    | Except.error _ => processEntries c es

/-- The sort key `lambda x: x["engagement_score"]`. -/
def scoreKey (p : Entry × ℚ) : ℚ := p.2

/-- Source `sorted_entries[:2]`: the surviving entries sorted by score
descending, truncated to the first two. -/
def top_two_entries (c : ScoringConfig) (es : List Entry) : List (Entry × ℚ) :=
  (sortDesc scoreKey (processEntries c es)).take 2

/-- One output record of `process_user_data`. -/
structure UserResult where
  user_id : String
  hashtags : List PyVal
  engagement_score : List ℚ
deriving Repr

/-- The per-user body of `process_user_data`: `none` when no entry survives
(the user is omitted), otherwise the emitted record with the selected
entries' hashtags and their scores rounded to two decimals. -/
def userResult (c : ScoringConfig) (uid : String) (es : List Entry) : Option UserResult :=
  match top_two_entries c es with
  | [] => none
  | _ :: _ =>
    some ⟨uid,
      (top_two_entries c es).map (fun p => p.1.hashtags.getD (PyVal.vList [])),
      (top_two_entries c es).map (fun p => round2 p.2)⟩

/-- Source `EngagementAnalyzer.process_user_data`: the input dictionary is modelled
as an association list in key-insertion order. -/
def process_user_data (c : ScoringConfig) (data : List (String × List Entry)) : List UserResult :=
  data.filterMap (fun p => userResult c p.1 p.2)

/-- Sample valid entry: string hashtags and a string `"false"` for liked
(the second example entry of the source, with liked given as a string). -/
def entry_b : Entry :=
  ⟨some (PyVal.vFloat 45), some (PyVal.vStr "false"), some (PyVal.vInt 2),
   some (PyVal.vBool true), some (PyVal.vStr "javascript")⟩

/-- The result of normalizing `entry_b` in place. -/
def entry_b_norm : Entry :=
  ⟨some (PyVal.vFloat 45), some (PyVal.vBool false), some (PyVal.vInt 2),
   some (PyVal.vBool true), some (PyVal.vList [PyVal.vStr "javascript"])⟩

/-- An entry missing every required field. -/
def entry_missing : Entry := ⟨none, none, none, none, none⟩

/-- An entry whose `time_spent` and `shares` are both Python booleans, with
every other field well formed. -/
def entry_boolboth : Entry :=
  ⟨some (PyVal.vBool true), some (PyVal.vBool false), some (PyVal.vBool true),
   some (PyVal.vBool false), some (PyVal.vList [])⟩

/-- A valid entry with a large share count (100 shares). -/
def entry_shares100 : Entry :=
  ⟨some (PyVal.vInt 0), some (PyVal.vBool false), some (PyVal.vInt 100),
   some (PyVal.vBool false), some (PyVal.vList [])⟩

/-- A well-typed entry with negative `time_spent`. -/
def entry_neg : Entry :=
  ⟨some (PyVal.vInt (-50)), some (PyVal.vBool false), some (PyVal.vInt 0),
   some (PyVal.vBool false), some (PyVal.vList [])⟩

/-- An entry exercising every normalization at once: string hashtags, a
string liked that is `"true"` up to case, and a string commented that is not
`"true"` in any case. -/
def entry_norm_all : Entry :=
  ⟨some (PyVal.vInt 1), some (PyVal.vStr "True"), some (PyVal.vInt 0),
   some (PyVal.vStr "nah"), some (PyVal.vStr "js")⟩

/-- The result of normalizing `entry_norm_all` in place. -/
def entry_norm_all_out : Entry :=
  ⟨some (PyVal.vInt 1), some (PyVal.vBool true), some (PyVal.vInt 0),
   some (PyVal.vBool false), some (PyVal.vList [PyVal.vStr "js"])⟩

/-- An otherwise well-typed entry whose hashtags value is an int. -/
def entry_badtags : Entry :=
  ⟨some (PyVal.vInt 1), some (PyVal.vBool true), some (PyVal.vInt 0),
   some (PyVal.vBool true), some (PyVal.vInt 3)⟩

/-- A two-user input mapping: one user with a valid entry, one with none. -/
def data_w : List (String × List Entry) := [("u1", [entry_a]), ("u2", [])]

example : validate_entry entry_a = Except.ok entry_a := rfl

example : calculate_score default_config entry_a = Except.ok (entry_a, 190 / 430 * 100) := by
  with_unfolding_all rfl

theorem ratFloor_eq_floor (q : ℚ) : ratFloor q = ⌊q⌋ := by
  rw [Rat.floor_def, ratFloor, Int.fdiv_eq_ediv _ (by positivity)]

theorem insertDesc_perm (key : α → ℚ) (x : α) (l : List α) :
    List.Perm (insertDesc key x l) (x :: l) := by
  induction l with
  | nil => exact List.Perm.refl _
  | cons y ys ih =>
    rw [insertDesc]
    split
    · exact (ih.cons y).trans (List.Perm.swap x y ys)
    · exact List.Perm.refl _

theorem sortDesc_perm (key : α → ℚ) (l : List α) : List.Perm (sortDesc key l) l := by
  induction l with
  | nil => exact List.Perm.refl _
  | cons x xs ih => exact (insertDesc_perm key x (sortDesc key xs)).trans (ih.cons x)

theorem insertDesc_sorted (key : α → ℚ) (x : α) (l : List α)
    (h : l.Pairwise (fun a b => key b ≤ key a)) :
    (insertDesc key x l).Pairwise (fun a b => key b ≤ key a) := by
  induction l with
  | nil => simp [insertDesc]
  | cons y ys ih =>
    rw [List.pairwise_cons] at h
    rw [insertDesc]
    split
    · refine List.pairwise_cons.2 ⟨fun z hz => ?_, ih h.2⟩
      rcases List.mem_cons.1 (((insertDesc_perm key x ys).mem_iff).1 hz) with hzx | hzy
      · subst hzx
        exact le_of_lt (by assumption)
      · exact h.1 z hzy
    · have hxy : key y ≤ key x := le_of_not_lt (by assumption)
      refine List.pairwise_cons.2 ⟨fun z hz => ?_, List.pairwise_cons.2 h⟩
      rcases List.mem_cons.1 hz with rfl | hzy
      · exact hxy
      · exact le_trans (h.1 z hzy) hxy

theorem sortDesc_sorted (key : α → ℚ) (l : List α) :
    (sortDesc key l).Pairwise (fun a b => key b ≤ key a) := by
  induction l with
  | nil => simp [sortDesc]
  | cons x xs ih => exact insertDesc_sorted key x (sortDesc key xs) ih

theorem insertDesc_filter_eq (key : α → ℚ) (x : α) (l : List α)
    (hx : key x = q) :
    (insertDesc key x l).filter (fun a => decide (key a = q)) =
      x :: l.filter (fun a => decide (key a = q)) := by
  induction l with
  | nil => simp [insertDesc, hx]
  | cons y ys ih =>
    rw [insertDesc]
    split
    · have hy : ¬ key y = q := by
        intro hyq
        exact absurd (by assumption : key x < key y) (by rw [hx, hyq]; exact lt_irrefl q)
      simp [List.filter_cons, hy, ih]
    · simp [List.filter_cons, hx]

theorem insertDesc_filter_ne (key : α → ℚ) (x : α) (l : List α)
    (hx : ¬ key x = q) :
    (insertDesc key x l).filter (fun a => decide (key a = q)) =
      l.filter (fun a => decide (key a = q)) := by
  induction l with
  | nil => simp [insertDesc, hx]
  | cons y ys ih =>
    rw [insertDesc]
    split
    · simp [List.filter_cons, ih]
    · simp [List.filter_cons, hx]

/-- Stability of `sortDesc`: the entries of any one score class keep exactly
their original relative order. -/
theorem sortDesc_stable (key : α → ℚ) (l : List α) (q : ℚ) :
    (sortDesc key l).filter (fun a => decide (key a = q)) =
      l.filter (fun a => decide (key a = q)) := by
  induction l with
  | nil => rfl
  | cons x xs ih =>
    rw [sortDesc]
    by_cases hx : key x = q
    · rw [insertDesc_filter_eq key x _ hx, ih]
      simp [List.filter_cons, hx]
    · rw [insertDesc_filter_ne key x _ hx, ih]
      simp [List.filter_cons, hx]

theorem roundHalfEven_ge_floor (q : ℚ) : ratFloor q ≤ roundHalfEven q := by
  rw [roundHalfEven]
  split_ifs <;> omega

theorem roundHalfEven_le_floor_add_one (q : ℚ) : roundHalfEven q ≤ ratFloor q + 1 := by
  rw [roundHalfEven]
  split_ifs <;> omega

theorem roundHalfEven_mono {q r : ℚ} (h : q ≤ r) : roundHalfEven q ≤ roundHalfEven r := by
  have hf : ratFloor q ≤ ratFloor r := by
    rw [ratFloor_eq_floor, ratFloor_eq_floor]
    exact Int.floor_le_floor h
  rcases lt_or_eq_of_le hf with hlt | heq
  · have h1 := roundHalfEven_le_floor_add_one q
    have h2 := roundHalfEven_ge_floor r
    omega
  · rw [roundHalfEven, roundHalfEven, ← heq]
    split_ifs <;> first
      | omega
      | linarith

theorem round2_mono {q r : ℚ} (h : q ≤ r) : round2 q ≤ round2 r := by
  rw [round2, round2]
  have : roundHalfEven (q * 100) ≤ roundHalfEven (r * 100) :=
    roundHalfEven_mono (by linarith)
  have hc : (roundHalfEven (q * 100) : ℚ) ≤ (roundHalfEven (r * 100) : ℚ) := by
    exact_mod_cast this
  linarith

example : validate_entry entry_b = Except.ok entry_b_norm := rfl

example : round2 (190 / 430 * 100) = 4419 / 100 := by with_unfolding_all rfl

example :
    process_user_data default_config [("user_123", [entry_a, entry_b])] =
      [⟨"user_123",
        [PyVal.vList [PyVal.vStr "python", PyVal.vStr "coding"],
         PyVal.vList [PyVal.vStr "javascript"]],
        [4419/100, 25]⟩] := by
  with_unfolding_all rfl

/-- C1: for every entry that passes validation, `calculate_score` returns
exactly `(time_spent * time_weight + (like_score if liked else 0) +
shares * share_score + (comment_score if commented else 0)) /
max_possible_score * 100`, computed on the normalized entry, with no rounding
at this stage (the score is the exact rational). -/
theorem claim_C1_score_formula (c : ScoringConfig) (e e1 : Entry)
    (h : validate_entry e = Except.ok e1) :
    calculate_score c e = Except.ok (e1,
      (pyToNum (e1.time_spent.getD (PyVal.vInt 0)) * c.time_weight
        + (if pyTruthy (e1.liked.getD (PyVal.vBool false)) then c.like_score else 0)
        + pyToNum (e1.shares.getD (PyVal.vInt 0)) * c.share_score
        + (if pyTruthy (e1.commented.getD (PyVal.vBool false)) then c.comment_score else 0))
      / c.max_possible_score * 100) := by
  simp [calculate_score, h, raw_score]

/-- Witness for C1 at the source's first example entry. -/
theorem claim_C1_score_formula_witness :
    validate_entry entry_a = Except.ok entry_a ∧
    calculate_score default_config entry_a = Except.ok (entry_a,
      (pyToNum (entry_a.time_spent.getD (PyVal.vInt 0)) * default_config.time_weight
        + (if pyTruthy (entry_a.liked.getD (PyVal.vBool false)) then
            default_config.like_score else 0)
        + pyToNum (entry_a.shares.getD (PyVal.vInt 0)) * default_config.share_score
        + (if pyTruthy (entry_a.commented.getD (PyVal.vBool false)) then
            default_config.comment_score else 0))
      / default_config.max_possible_score * 100) :=
  ⟨rfl, claim_C1_score_formula default_config entry_a entry_a rfl⟩

/-- C2 counterexample: an entry whose `time_spent` and `shares` are both
Python booleans passes `validate_entry` without error, because `bool` is a
subclass of `int` and so satisfies both `isinstance` checks. -/
theorem claim_C2_counterexample :
    validate_entry entry_boolboth = Except.ok entry_boolboth := rfl

/-- C2 amended: booleans are accepted, not rejected: any entry whose five
fields are present, whose `time_spent` and `shares` values are booleans and
whose hashtags value is a string or a list passes `validate_entry`. -/
theorem claim_C2_bools_accepted (b sb : Bool) (lk cm ht : PyVal)
    (h : hashtagsStrOrList ht = true) :
    ∃ e1, validate_entry
      ⟨some (PyVal.vBool b), some lk, some (PyVal.vBool sb), some cm, some ht⟩ =
        Except.ok e1 := by
  cases ht with
  | vStr s => exact ⟨_, rfl⟩
  | vList xs => exact ⟨_, rfl⟩
  | vBool x => simp [hashtagsStrOrList] at h
  | vInt x => simp [hashtagsStrOrList] at h
  | vFloat x => simp [hashtagsStrOrList] at h

/-- Witness for the amended C2, with both suspect fields boolean. -/
theorem claim_C2_bools_accepted_witness :
    hashtagsStrOrList (PyVal.vList []) = true ∧
    ∃ e1, validate_entry
      ⟨some (PyVal.vBool true), some (PyVal.vBool false), some (PyVal.vBool true),
       some (PyVal.vBool false), some (PyVal.vList [])⟩ = Except.ok e1 :=
  ⟨rfl, claim_C2_bools_accepted true true (PyVal.vBool false) (PyVal.vBool false)
    (PyVal.vList []) rfl⟩

/-- C7: `max_possible_score` is
`max_time * time_weight + like_score + 20 * share_score + comment_score` for
every configuration; it is 430 for the default configuration; and on the
spec's example entry the score is exactly `190 / 430 * 100`, which rounds to
44.19. -/
theorem claim_C7_max_possible_score :
    (∀ c : ScoringConfig, c.max_possible_score =
      c.max_time * c.time_weight + c.like_score + 20 * c.share_score + c.comment_score)
    ∧ default_config.max_possible_score = 430
    ∧ calculate_score default_config entry_a = Except.ok (entry_a, 190 / 430 * 100)
    ∧ round2 (190 / 430 * 100) = 4419 / 100 :=
  ⟨fun _ => rfl, by with_unfolding_all rfl, by with_unfolding_all rfl,
   by with_unfolding_all rfl⟩

/-- C8: scores are not clamped to 100: a valid entry with 100 shares scores
strictly above 100 under the default configuration. -/
theorem claim_C8_no_clamp :
    ∃ (e : Entry) (q : ℚ), validate_entry e = Except.ok e ∧
      calculate_score default_config e = Except.ok (e, q) ∧ 100 < q :=
  ⟨entry_shares100, 100000/430, by with_unfolding_all rfl, by with_unfolding_all rfl,
   by norm_num⟩

/-- C9: whenever `validate_entry` raises, the entry is left completely
unchanged: every raise point executes before any of the in-place updates of
hashtags, liked or commented. -/
theorem claim_C9_no_partial_mutation (e : Entry) (m : String)
    (h : (validateEntryRun e).2 = some m) : (validateEntryRun e).1 = e := by
  rcases e with ⟨ts, lk, sh, cm, ht⟩
  rcases ts with _ | ts <;> rcases lk with _ | lk <;> rcases sh with _ | sh <;>
      rcases cm with _ | cm <;> rcases ht with _ | ht <;> try rfl
  simp only [validateEntryRun] at h ⊢
  split_ifs at h ⊢ with h1 h2
  · rfl
  · rfl
  · cases ht <;> simp_all

/-- Witness for C9 at an entry with every field missing. -/
theorem claim_C9_no_partial_mutation_witness :
    (validateEntryRun entry_missing).2 = some "Missing required fields in entry" ∧
    (validateEntryRun entry_missing).1 = entry_missing :=
  ⟨rfl, claim_C9_no_partial_mutation entry_missing "Missing required fields in entry" rfl⟩

/-- C10: validation imposes no non-negativity check: a well-typed entry with
negative `time_spent` is accepted and receives a negative score. -/
theorem claim_C10_negative_accepted :
    ∃ (e : Entry) (q : ℚ), e.time_spent = some (PyVal.vInt (-50)) ∧
      validate_entry e = Except.ok e ∧
      calculate_score default_config e = Except.ok (e, q) ∧ q < 0 :=
  ⟨entry_neg, -75/430*100, rfl, by with_unfolding_all rfl, by with_unfolding_all rfl,
   by norm_num⟩

theorem processEntries_append (c : ScoringConfig) (l1 l2 : List Entry) :
    processEntries c (l1 ++ l2) = processEntries c l1 ++ processEntries c l2 := by
  induction l1 with
  | nil => rfl
  | cons e es ih =>
    simp only [List.cons_append, processEntries]
    cases calculate_score c e <;> simp [ih]

/-- C3: an entry on which `calculate_score` raises is skipped and nothing
else changes: the survivors of the user's list are exactly those of the list
without the bad entry, and the whole run's output is unchanged whatever the
surrounding users are; in particular the error never escapes
`process_user_data`. -/
theorem claim_C3_skip_only_bad (c : ScoringConfig) (pre post : List Entry) (bad : Entry)
    (m : String) (h : calculate_score c bad = Except.error m) :
    processEntries c (pre ++ bad :: post) = processEntries c (pre ++ post)
    ∧ ∀ (dpre dpost : List (String × List Entry)) (uid : String),
        process_user_data c (dpre ++ (uid, pre ++ bad :: post) :: dpost) =
          process_user_data c (dpre ++ (uid, pre ++ post) :: dpost) := by
  have h1 : processEntries c (pre ++ bad :: post) = processEntries c (pre ++ post) := by
    rw [processEntries_append, processEntries_append]
    simp [processEntries, h]
  refine ⟨h1, fun dpre dpost uid => ?_⟩
  have h2 : top_two_entries c (pre ++ bad :: post) = top_two_entries c (pre ++ post) := by
    rw [top_two_entries, top_two_entries, h1]
  rw [process_user_data, process_user_data, List.filterMap_append, List.filterMap_append,
    List.filterMap_cons, List.filterMap_cons]
  simp only [userResult]
  rw [h2]

/-- Witness for C3: dropping an invalid entry leaves the valid sibling. -/
theorem claim_C3_skip_only_bad_witness :
    calculate_score default_config entry_missing =
      Except.error "Missing required fields in entry"
    ∧ processEntries default_config ([entry_a] ++ entry_missing :: []) =
        processEntries default_config ([entry_a] ++ []) :=
  ⟨rfl, (claim_C3_skip_only_bad default_config [entry_a] [] entry_missing
    "Missing required fields in entry" rfl).1⟩

/-- C4: per user the selection is the first two entries of the survivors
sorted by engagement score descending; that sorted list is a permutation of
the survivors, is pairwise descending, and is stable: each score class keeps
its original relative order (so ties keep input order, with no secondary
key); at most two entries are selected, fewer when fewer survive. -/
theorem claim_C4_sort_and_select (c : ScoringConfig) (es : List Entry) :
    top_two_entries c es = (sortDesc scoreKey (processEntries c es)).take 2
    ∧ List.Perm (sortDesc scoreKey (processEntries c es)) (processEntries c es)
    ∧ (sortDesc scoreKey (processEntries c es)).Pairwise (fun a b => scoreKey b ≤ scoreKey a)
    ∧ (∀ q : ℚ, (sortDesc scoreKey (processEntries c es)).filter
          (fun a => decide (scoreKey a = q)) =
        (processEntries c es).filter (fun a => decide (scoreKey a = q)))
    ∧ (top_two_entries c es).length = min 2 (processEntries c es).length :=
  ⟨rfl, sortDesc_perm _ _, sortDesc_sorted _ _, fun q => sortDesc_stable _ _ q,
   by rw [top_two_entries, List.length_take,
     (sortDesc_perm scoreKey (processEntries c es)).length_eq]⟩

theorem userResult_user_id (c : ScoringConfig) (uid : String) (es : List Entry)
    (r : UserResult) (h : userResult c uid es = some r) : r.user_id = uid := by
  simp only [userResult] at h
  split at h
  · exact absurd h (by simp)
  · cases h
    rfl

theorem userResult_of_no_survivors (c : ScoringConfig) (uid : String) (es : List Entry)
    (h : processEntries c es = []) : userResult c uid es = none := by
  have ht : top_two_entries c es = [] := by
    rw [top_two_entries, h]
    rfl
  simp [userResult, ht]

theorem userResult_props (c : ScoringConfig) (uid : String) (es : List Entry)
    (r : UserResult) (h : userResult c uid es = some r) :
    r.hashtags.length = r.engagement_score.length
    ∧ 1 ≤ r.engagement_score.length ∧ r.engagement_score.length ≤ 2
    ∧ r.engagement_score.Pairwise (fun a b => b ≤ a)
    ∧ ∀ x ∈ r.engagement_score, ∃ n : ℤ, x = (n : ℚ) / 100 := by
  rcases htop : top_two_entries c es with _ | ⟨p, ps⟩
  · simp [userResult, htop] at h
  · simp only [userResult, htop] at h
    cases h
    have hlen : (p :: ps).length ≤ 2 := by
      have hmin := List.length_take 2 (sortDesc scoreKey (processEntries c es))
      rw [top_two_entries] at htop
      rw [htop] at hmin
      rw [hmin]
      exact min_le_left _ _
    have hsorted : (p :: ps).Pairwise (fun a b => scoreKey b ≤ scoreKey a) := by
      have hsub : List.Sublist (p :: ps) (sortDesc scoreKey (processEntries c es)) := by
        rw [top_two_entries] at htop
        rw [← htop]
        exact List.take_sublist 2 _
      exact (sortDesc_sorted scoreKey (processEntries c es)).sublist hsub
    refine ⟨by simp, by simp, by simpa using hlen, ?_, ?_⟩
    · rw [List.pairwise_map]
      exact hsorted.imp (fun hab => round2_mono hab)
    · intro x hx
      rw [List.mem_map] at hx
      obtain ⟨pq, _, rfl⟩ := hx
      exact ⟨roundHalfEven (pq.2 * 100), rfl⟩

theorem nodup_key_inj {l : List (String × List Entry)} (h : (l.map Prod.fst).Nodup)
    {p p' : String × List Entry} (hp : p ∈ l) (hp' : p' ∈ l) (he : p.1 = p'.1) : p = p' := by
  induction l with
  | nil => cases hp
  | cons a t ih =>
    rw [List.map_cons, List.nodup_cons] at h
    rcases List.mem_cons.1 hp with rfl | hp2
    · rcases List.mem_cons.1 hp' with rfl | hp2'
      · rfl
      · exact absurd (by rw [he]; exact List.mem_map_of_mem Prod.fst hp2') h.1
    · rcases List.mem_cons.1 hp' with rfl | hp2'
      · exact absurd (by rw [← he]; exact List.mem_map_of_mem Prod.fst hp2) h.1
      · exact ih h.2 hp2 hp2'

theorem process_user_data_keys_sublist (c : ScoringConfig)
    (data : List (String × List Entry)) :
    List.Sublist ((process_user_data c data).map UserResult.user_id)
      (data.map Prod.fst) := by
  induction data with
  | nil => simp [process_user_data]
  | cons p t ih =>
    rw [process_user_data, List.filterMap_cons]
    rcases hu : userResult c p.1 p.2 with _ | r
    · simp only [List.map_cons]
      exact List.Sublist.cons p.1 ih
    · simp only [List.map_cons]
      rw [userResult_user_id c p.1 p.2 r hu]
      exact List.Sublist.cons₂ p.1 ih

/-- C5: the output of `process_user_data` lists users in input key order
(its user-id column is a sublist of the input keys); a user with no
surviving entry has no record; and every record has parallel hashtags and
score lists of length 1 or 2, with the displayed scores descending and each
a whole multiple of 1/100 (rounded to two decimal places). -/
theorem claim_C5_output_invariants (c : ScoringConfig)
    (data : List (String × List Entry)) (hnd : (data.map Prod.fst).Nodup) :
    List.Sublist ((process_user_data c data).map UserResult.user_id)
      (data.map Prod.fst)
    ∧ (∀ p ∈ data, processEntries c p.2 = [] →
        ∀ r ∈ process_user_data c data, r.user_id ≠ p.1)
    ∧ ∀ r ∈ process_user_data c data,
        r.hashtags.length = r.engagement_score.length
        ∧ 1 ≤ r.engagement_score.length ∧ r.engagement_score.length ≤ 2
        ∧ r.engagement_score.Pairwise (fun a b => b ≤ a)
        ∧ ∀ x ∈ r.engagement_score, ∃ n : ℤ, x = (n : ℚ) / 100 := by
  refine ⟨process_user_data_keys_sublist c data, ?_, ?_⟩
  · intro p hp hempty r hr heq
    rw [process_user_data, List.mem_filterMap] at hr
    obtain ⟨p', hp', hu⟩ := hr
    have hid : r.user_id = p'.1 := userResult_user_id c p'.1 p'.2 r hu
    have hpp : p' = p := nodup_key_inj hnd hp' hp (by rw [← hid, heq])
    rw [hpp] at hu
    rw [userResult_of_no_survivors c p.1 p.2 hempty] at hu
    exact absurd hu (by simp)
  · intro r hr
    rw [process_user_data, List.mem_filterMap] at hr
    obtain ⟨p', _, hu⟩ := hr
    exact userResult_props c p'.1 p'.2 r hu

/-- Witness for C5 on a concrete two-user mapping. -/
theorem claim_C5_output_invariants_witness :
    (data_w.map Prod.fst).Nodup ∧
    List.Sublist ((process_user_data default_config data_w).map UserResult.user_id)
      (data_w.map Prod.fst) :=
  ⟨by decide, (claim_C5_output_invariants default_config data_w (by decide)).1⟩

theorem validate_entry_ok_shape (e e1 : Entry) (h : validate_entry e = Except.ok e1) :
    ∃ ts lk sh cm ht, e = ⟨some ts, some lk, some sh, some cm, some ht⟩
      ∧ hashtagsStrOrList ht = true
      ∧ e1 = ⟨some ts, normBoolStr (some lk), some sh, normBoolStr (some cm),
          some (normTags ht)⟩ := by
  rcases e with ⟨ts, lk, sh, cm, ht⟩
  rcases ts with _ | ts <;> rcases lk with _ | lk <;> rcases sh with _ | sh <;>
      rcases cm with _ | cm <;> rcases ht with _ | ht <;>
      simp only [validate_entry, validateEntryRun] at h <;>
      try exact absurd h (by simp)
  split_ifs at h with h1 h2
  cases ht with
    | vStr s =>
      cases h
      exact ⟨ts, lk, sh, cm, PyVal.vStr s, rfl, rfl, rfl⟩
    | vList xs =>
      cases h
      exact ⟨ts, lk, sh, cm, PyVal.vList xs, rfl, rfl, rfl⟩
    | vBool x => exact absurd h (by simp)
    | vInt x => exact absurd h (by simp)
    | vFloat x => exact absurd h (by simp)

/-- C6: on every accepted entry, a string hashtags value is replaced by the
one-element list holding it and a list value is kept as found (with no check
of its elements); a string liked/commented value is replaced by `True`
exactly when it lowercases to `"true"` and by `False` otherwise, never
raising; and when the (otherwise well-typed) hashtags value is neither a
string nor a list, `validate_entry` raises. -/
theorem claim_C6_normalization (e e1 : Entry) :
    ((validate_entry e = Except.ok e1) →
      (∀ s, e.hashtags = some (PyVal.vStr s) →
        e1.hashtags = some (PyVal.vList [PyVal.vStr s]))
      ∧ (∀ xs, e.hashtags = some (PyVal.vList xs) → e1.hashtags = some (PyVal.vList xs))
      ∧ (∀ s, e.liked = some (PyVal.vStr s) →
          e1.liked = some (PyVal.vBool (pyLower s == "true")))
      ∧ (∀ s, e.commented = some (PyVal.vStr s) →
          e1.commented = some (PyVal.vBool (pyLower s == "true"))))
    ∧ (∀ ts lk sh cm ht, e = ⟨some ts, some lk, some sh, some cm, some ht⟩ →
        pyIsNumeric ts = true → pyIsInt sh = true → hashtagsStrOrList ht = false →
        validate_entry e = Except.error "hashtags must be a string or a list") := by
  constructor
  · intro h
    obtain ⟨ts, lk, sh, cm, ht, rfl, hok, rfl⟩ := validate_entry_ok_shape e e1 h
    refine ⟨?_, ?_, ?_, ?_⟩
    · intro s hs
      cases hs
      rfl
    · intro xs hxs
      cases hxs
      rfl
    · intro s hs
      cases hs
      rfl
    · intro s hs
      cases hs
      rfl
  · rintro ts lk sh cm ht rfl hn hi hb
    cases ht with
    | vStr s => simp [hashtagsStrOrList] at hb
    | vList xs => simp [hashtagsStrOrList] at hb
    | vBool b => simp [validate_entry, validateEntryRun, hn, hi]
    | vInt n => simp [validate_entry, validateEntryRun, hn, hi]
    | vFloat q => simp [validate_entry, validateEntryRun, hn, hi]

/-- Witness for C6: one entry exercising all three normalizations, and one
rejected for its int-valued hashtags. -/
theorem claim_C6_normalization_witness :
    validate_entry entry_norm_all = Except.ok entry_norm_all_out
    ∧ entry_norm_all_out.hashtags = some (PyVal.vList [PyVal.vStr "js"])
    ∧ entry_norm_all_out.liked = some (PyVal.vBool (pyLower "True" == "true"))
    ∧ entry_norm_all_out.commented = some (PyVal.vBool (pyLower "nah" == "true"))
    ∧ validate_entry entry_badtags = Except.error "hashtags must be a string or a list" :=
  ⟨rfl,
   ((claim_C6_normalization entry_norm_all entry_norm_all_out).1 rfl).1 "js" rfl,
   ((claim_C6_normalization entry_norm_all entry_norm_all_out).1 rfl).2.2.1 "True" rfl,
   ((claim_C6_normalization entry_norm_all entry_norm_all_out).1 rfl).2.2.2 "nah" rfl,
   (claim_C6_normalization entry_badtags entry_badtags).2 (PyVal.vInt 1) (PyVal.vBool true)
     (PyVal.vInt 0) (PyVal.vBool true) (PyVal.vInt 3) rfl rfl rfl rfl⟩
